import Mathlib

/- Shallow embedding of the ukg imperative statement builder
   (src/python/KStmt.py and src/python/ukg.py): the per-block scope stack,
   the statement-fold algorithm of KStmt.pop_stmt, the named-block
   dependency bookkeeping of KStmt.__exit__, and the control-flow
   constructs if_/elif_/else_/for_/while_/break_/return_/def_.
   Python-level failures (raise, AttributeError via __getattr__,
   AssertionError) are modelled with Except String. -/

namespace UkgModel

/-- Loop kinds, the tvm ForKind values referenced at ukg.py:197-204. -/
inductive ForKind
  | SERIAL
  | PARALLEL
  | VECTORIZED
  | UNROLLED
deriving DecidableEq

/-- Opaque tvm expression nodes as the builder constructs them. -/
inductive Expr
  | Var (nm : String)
  | IntImm (v : Int)
  | UIntImm (dtype : String) (v : Int)
  | Cast (dtype : String) (e : Expr)
deriving DecidableEq

/-- Opaque tvm statement nodes as the builder constructs them.
`Evaluate 0` is the no-op padding statement of KStmt.pop_stmt
(KStmt.py:210); `Block` is the two-statement sequence node of
KStmt.py:217.  `ForPy` is the node built at ukg.py:209: its last field
records that the code passes the KStmt object itself (identified here by
its id) where a body statement belongs.  `KernelDef` keeps the
claim-relevant fields of the node emitted at ukg.py:400-401. -/
inductive Stmt
  | Evaluate (v : Int)
  | Block (first second : Stmt)
  | IfThenElse (cond : Expr) (then_case : Stmt) (else_case : Option Stmt)
  | ForPy (loop_var : String) (begin_ : Int) (extent : Int) (kind : ForKind) (body_kstmt_id : Nat)
  | While (cond : Expr) (body : Stmt)
  | BreakStmt
  | ReturnStmt (value : Expr)
  | AttrStmt (buf_id : Nat) (attr_key : String) (value : String) (body : Stmt)
  | KernelDef (body : Stmt) (ret_void : Expr) (ret_type : String) (nm : String)

/-- The no-op statement `_stmt.Evaluate(0)` (KStmt.py:210). -/
def nopStmt : Stmt := .Evaluate 0

/-- One Python entry of a scope statement list.  KStmt.emit
(KStmt.py:192-196) appends any value without a type check, so an entry is
either a concrete statement node, a callable (a deferred wrapper, as
emitted by KStmt.__exit__ at KStmt.py:138-140), or any other Python value
(`other`, identified by an opaque tag). -/
inductive Entry
  | stmt (s : Stmt)
  | fn (f : Stmt → Stmt)
  | other (tag : Nat)

/-- The message of the `assert isinstance(s, _stmt.Stmt)` failure in
KStmt.pop_stmt (KStmt.py:216). -/
def assertIsStmtMsg : String := "AssertionError: isinstance(s, Stmt)"

/-- Python `callable(entry)` for a scope entry (KStmt.py:209,213). -/
def isFnEntry : Entry → Bool
  | .fn _ => true
  | _ => false

/-- Whether the last entry of a scope list is callable (KStmt.py:209). -/
def lastIsFn (l : List Entry) : Bool :=
  match l.getLast? with
  | some e => isFnEntry e
  | none => false

/-- KStmt.pop_stmt lines 209-210: if the popped list is empty or its last
entry is callable, a no-op statement is appended first. -/
def padScope (stmts : List Entry) : List Entry :=
  if stmts.isEmpty || lastIsFn stmts then stmts ++ [.stmt nopStmt] else stmts

/-- The loop of KStmt.pop_stmt lines 212-217, scanning `reversed(stmts[:-1])`
with the running result `acc`: a callable is applied to the running result,
a statement is combined with it into a Block, and anything else trips the
`assert isinstance(s, _stmt.Stmt)`. -/
def foldEntries : Stmt → List Entry → Except String Stmt
  | acc, [] => .ok acc
  | acc, .fn f :: rest => foldEntries (f acc) rest
  | acc, .stmt s :: rest => foldEntries (.Block s acc) rest
  | _, .other _ :: _ => .error assertIsStmtMsg

/-- KStmt.pop_stmt (KStmt.py:206-218) on an already-popped scope list:
pad, start from the last entry, and fold the earlier entries right to
left.  After padding the last entry is never callable; when it is not a
statement node either, Python would hand the foreign value to the external
tvm node constructors, which is outside this embedding and modelled as an
error. -/
def popStmt (stmts : List Entry) : Except String Stmt :=
  match (padScope stmts).getLast? with
  | some (.stmt s) => foldEntries s ((padScope stmts).dropLast.reverse)
  | some _ => .error "TypeError: scope folded onto a non-statement value"
  | none => .error "IndexError: list index out of range"

/-- Spec-side description of §8 property 1: a wrapper-free list of concrete
statements folds to a right-nested sequence preserving the original order. -/
def rightNest : List Stmt → Stmt
  | [] => nopStmt
  | s :: rest => if rest.isEmpty then s else .Block s (rightNest rest)

/-- The per-block mutable state a KStmt instance owns after __init__
(KStmt.py:72-109).  Cross-block sets hold block identities, modelled as
numeric ids.  `var_dict_keys`, `lhs_names`, `input_names` and
`input_lhs_names` are the name views of var_dict, lhs_tensors,
input_KStmts and the input blocks lhs_tensors that KStmt.__getattr__
searches; payload values are irrelevant to the claims.  Note __init__
defines the unnamed-loop counter as `for_ID` (KStmt.py:87); no attribute
named `nidx` exists. -/
structure KState where
  nm : String
  id : Nat
  stmt_stack : List (List Entry)
  var_dict_keys : List String
  lhs_names : List String
  input_names : List String
  input_lhs_names : List String
  has_break : Bool
  has_return : Bool
  ret_dtype : Option String
  for_level : Int
  for_ID : Nat
  input_KStmts : Finset Nat
  last_subKStmts : Finset Nat
  subKStmts : List Nat

/-- A freshly constructed KStmt (KStmt.py:72-109): one empty scope list,
cleared flags and counters, empty dependency sets. -/
def freshK (nm : String) (id : Nat) : KState :=
  { nm := nm
    id := id
    stmt_stack := [[]]
    var_dict_keys := []
    lhs_names := []
    input_names := []
    input_lhs_names := []
    has_break := false
    has_return := false
    ret_dtype := none
    for_level := 0
    for_ID := 0
    input_KStmts := ∅
    last_subKStmts := ∅
    subKStmts := [] }

/-- Python `self.stmt_stack[-1].append(e)`: append to the top scope list,
or fail with an IndexError when the stack is empty. -/
def pushLast (stk : List (List Entry)) (e : Entry) : Option (List (List Entry)) :=
  match stk.getLast? with
  | none => none
  | some top => some (stk.dropLast ++ [top ++ [e]])

/-- KStmt.emit (KStmt.py:192-196): refuse when has_break is set, otherwise
append the entry, whatever it is, to the top scope list. -/
def emitE (s : KState) (e : Entry) : Except String KState :=
  if s.has_break then .error "Cannot write statements after break"
  else
    match pushLast s.stmt_stack e with
    | none => .error "IndexError: list index out of range"
    | some st => .ok { s with stmt_stack := st }

/-- KStmt.pop_stmt at the block level (KStmt.py:206-218): pop the top
scope list off stmt_stack and fold it to one statement. -/
def popStmtS (s : KState) : Except String (Stmt × KState) :=
  match s.stmt_stack.getLast? with
  | none => .error "IndexError: pop from empty list"
  | some top =>
      match popStmt top with
      | .error m => .error m
      | .ok st => .ok (st, { s with stmt_stack := s.stmt_stack.dropLast })

/-- KStmt.__getattr__ fallback lookup (KStmt.py:167-190) over the names
visible in the reduced state: var_dict keys, lhs tensor names, input block
names, then the input blocks lhs tensor names.  Success payloads
(variables, block/tensor pairs) are collapsed to Unit, as only hit-or-miss
matters to the claims. -/
def getattrKStmt (s : KState) (attr : String) : Except String Unit :=
  if attr ∈ s.var_dict_keys then .ok ()
  else if attr ∈ s.lhs_names then .ok ()
  else if attr ∈ s.input_names then .ok ()
  else if attr ∈ s.input_lhs_names then .ok ()
  else .error ("Member " ++ attr ++ " not found")

/-- KStmt.__exit__ step 1 (KStmt.py:118): merge the last sub-blocks into
the block own input set. -/
def exitReconcile (s : KState) : KState :=
  { s with input_KStmts := s.last_subKStmts ∪ s.input_KStmts }

/-- KStmt.__exit__ parent update (KStmt.py:141-157), applied to the
already-reconciled child: the parent input set gains the child inputs
minus the parent old last sub-blocks, the parent last sub-blocks gain
the child minus the child inputs, lhs names are merged, and the child is
registered in var_dict and subKStmts. -/
def exitAbsorb (parent child : KState) : KState :=
  { parent with
    input_KStmts := (parent.input_KStmts ∪ child.input_KStmts) \ parent.last_subKStmts
    last_subKStmts := (parent.last_subKStmts ∪ {child.id}) \ child.input_KStmts
    lhs_names := parent.lhs_names ++ child.lhs_names
    var_dict_keys := parent.var_dict_keys ++ [child.nm]
    subKStmts := parent.subKStmts ++ [child.id] }

/-- The dependency-set effect on the parent of one child close
(KStmt.py:116-157): reconcile the child, then absorb it. -/
def closeInto (child parent : KState) : KState :=
  exitAbsorb parent (exitReconcile child)

/-- ukg.if_ entry (ukg.py:75-76): push a fresh scope list. -/
def ifEnter (s : KState) : KState :=
  { s with stmt_stack := s.stmt_stack ++ [[]] }

/-- The _exit_cb of ukg.if_ (ukg.py:77-80): fold the pushed scope, clear
has_break on the instance, and emit the conditional with no else branch. -/
def ifExit (cond : Expr) (s : KState) : Except String KState := do
  let (body, s1) ← popStmtS s
  emitE { s1 with has_break := false } (.stmt (.IfThenElse cond body none))

/-- ukg.else_ entry (ukg.py:97-104): the last entry of the current scope
must be a conditional with no else branch (Python checks emptiness, then
`isinstance(prev, IfThenElse)` and `prev.else_case`, raising the same
message); the entry is popped and a new scope pushed.  Returns the popped
conditional together with the new state. -/
def elseEnter (s : KState) : Except String (Stmt × KState) :=
  match s.stmt_stack.getLast? with
  | none => .error "IndexError: list index out of range"
  | some top =>
    match top.getLast? with
    | some (.stmt (.IfThenElse c t none)) =>
        .ok (.IfThenElse c t none,
          { s with stmt_stack := s.stmt_stack.dropLast ++ [top.dropLast, []] })
    | _ => .error "else_ can only follow an if_"

/-- ukg.elif_ entry (ukg.py:127-135): unlike else_, only
`isinstance(prev, IfThenElse)` is checked -- a conditional whose else
branch is already set is accepted. -/
def elifEnter (s : KState) : Except String (Stmt × KState) :=
  match s.stmt_stack.getLast? with
  | none => .error "IndexError: list index out of range"
  | some top =>
    match top.getLast? with
    | some (.stmt (.IfThenElse c t e)) =>
        .ok (.IfThenElse c t e,
          { s with stmt_stack := s.stmt_stack.dropLast ++ [top.dropLast, []] })
    | _ => .error "elif_ can only follow an if_"

/-- Whether the last entry of a scope list is a conditional statement
(of any else state); the condition elif_ actually enforces. -/
def lastIsCondEntry (top : List Entry) : Bool :=
  match top.getLast? with
  | some (.stmt (.IfThenElse _ _ _)) => true
  | _ => false

/-- KStmt.replace_else (KStmt.py:198-204): descend through chained
conditionals in the else slot and place the new branch at the innermost
conditional; a non-conditional if_stmt trips the assertion. -/
def replace_else : Stmt → Stmt → Except String Stmt
  | .IfThenElse c t (some (.IfThenElse c2 t2 e2)), els => do
      let r ← replace_else (.IfThenElse c2 t2 e2) els
      .ok (.IfThenElse c t (some r))
  | .IfThenElse c t _, els => .ok (.IfThenElse c t (some els))
  | _, _ => .error "AssertionError: Wrong if statement"

/-- The _exit_cb of ukg.elif_ (ukg.py:136-139). -/
def elifExit (prev : Stmt) (cond : Expr) (s : KState) : Except String KState := do
  let (body, s1) ← popStmtS s
  let r ← replace_else prev (.IfThenElse cond body none)
  emitE { s1 with has_break := false } (.stmt r)

/-- ukg.while_ entry (ukg.py:233-235): push a scope and increment the
instance for_level. -/
def whileEnter (s : KState) : KState :=
  { s with stmt_stack := s.stmt_stack ++ [[]], for_level := s.for_level + 1 }

/-- The _exit_cb of ukg.while_ (ukg.py:237-242): fold, clear has_break,
decrement for_level, emit the while node. -/
def whileExit (cond : Expr) (s : KState) : Except String KState := do
  let (body, s1) ← popStmtS s
  emitE { s1 with has_break := false, for_level := s1.for_level - 1 }
    (.stmt (.While cond body))

/-- ukg.break_ (ukg.py:268-271): Python `if not ...for_level` refuses at
loop depth 0; otherwise emit a Break node (which itself refuses when
has_break is already set) and set has_break. -/
def breakE (s : KState) : Except String KState :=
  if s.for_level = 0 then .error "break_ must be used inside a for/while loop"
  else do
    let s1 ← emitE s (.stmt .BreakStmt)
    .ok { s1 with has_break := true }

/-- Class-level attributes of KStmt: the class body defines only
`_current` (KStmt.py:69); `for_level` and `has_break` exist on instances.
ukg.for_ reads/assigns them on the class object itself (ukg.py:195, 207,
208), so they are modelled as initially absent optional slots. -/
structure ClsState where
  for_level_cls : Option Int
  has_break_cls : Option Bool
deriving DecidableEq

/-- The KStmt class attributes at interpreter start. -/
def clsInit : ClsState := ⟨none, none⟩

/-- The auto-naming expression of ukg.for_ (ukg.py:190) for the default
name "i" and a given counter value: `chr(ord("i") + n)` when `n < 3`
(ord "i" is 105), else `"i_" + str(n - 3)`. -/
def autoLoopName (n : Nat) : String :=
  if n < 3 then String.mk [Char.ofNat (105 + n)] else "i_" ++ toString (n - 3)

/-- ukg.for_ entry (ukg.py:188-195).  With the default name "i" the code
reads `ukg_stmt.nidx`; KStmt.__init__ defines `for_ID`, not `nidx`
(KStmt.py:87), so the read falls to __getattr__, and if a member named
"nidx" did resolve there its payload would be a variable, block or tensor
pair, never an integer, so `chr(ord(name) + nidx)` would still fail.
Line 195 then evaluates `KStmt.for_level += 1` on the class object, whose
body defines no `for_level`.  Returns state, class state, loop-variable
name and extent. -/
def forEnter (b e : Int) (nm : String) (s : KState) (cls : ClsState) :
    Except String (KState × ClsState × String × Int) := do
  let nm2 ←
    if nm = "i" then do
      let _ ← getattrKStmt s "nidx"
      Except.error "TypeError: chr argument resolved to a non-integer"
    else Except.ok nm
  let s := { s with stmt_stack := s.stmt_stack ++ [[]] }
  let extent := if b = 0 then e else e - b
  match cls.for_level_cls with
  | none => .error "AttributeError: type object KStmt has no attribute for_level"
  | some v => .ok (s, { cls with for_level_cls := some (v + 1) }, nm2, extent)

/-- The _exit_cb of ukg.for_ (ukg.py:196-209): map the kind tag; assign
`KStmt.has_break = False` on the class (the instance flag is untouched);
evaluate `KStmt.for_level += 1` on the class (absent at interpreter
start); then emit, without any pop_stmt, a For node whose body argument is
the KStmt object itself. -/
def forExit (kind : String) (loopVar : String) (b extent : Int) (s : KState)
    (cls : ClsState) : Except String (KState × ClsState) := do
  let kindId ←
    match kind with
    | "serial" => Except.ok ForKind.SERIAL
    | "parallel" => Except.ok ForKind.PARALLEL
    | "vectorize" => Except.ok ForKind.VECTORIZED
    | "unroll" => Except.ok ForKind.UNROLLED
    | _ => Except.error "Unknown kind"
  let cls := { cls with has_break_cls := some false }
  let v ←
    match cls.for_level_cls with
    | none => Except.error "AttributeError: type object KStmt has no attribute for_level"
    | some v => Except.ok v
  let cls := { cls with for_level_cls := some (v + 1) }
  let s ← emitE s (.stmt (.ForPy loopVar b extent kindId s.id))
  .ok (s, cls)

/-- Modelled from the spec: the external dtype-inference utility
`util.get_tvm_dtype` that ukg.py calls (the `util` module is not under
src/); per spec section 6 it resolves a declared element type, or a
default when none is declared. -/
def get_tvm_dtype (declared : Option String) : String :=
  declared.getD "int32"

/-- One operation of a traced callable body, acting on the global
open-block stack `KStmt._current` (innermost block last). -/
inductive TraceOp
  | emitStmt (v : Stmt)
  | returnOp (v : Expr)
  | enterSub (nm : String) (id : Nat)
  | exitSub

/-- Apply an Except-valued update to the innermost open block. -/
def modifyTop (stk : List KState) (f : KState → Except String KState) :
    Except String (List KState) :=
  match stk.getLast? with
  | none => .error "IndexError: list index out of range"
  | some top =>
      match f top with
      | .error m => .error m
      | .ok t => .ok (stk.dropLast ++ [t])

/-- KStmt.__exit__ (KStmt.py:115-162) on the open-block stack: reconcile
the closing block input set, fold its outermost scope (the body handed
to the external _ExternOp factory, which is not modelled further), pop the
block, and, when a parent remains open, emit the attach_scope deferred
wrapper into the parent (the lambda of KStmt.py:138-140, closing over the
child buffer and the parent name) and absorb the child dependency
sets; with no parent the Schedule globals (external) are updated. -/
def kexit (stk : List KState) : Except String (List KState) :=
  match stk.getLast? with
  | none => .error "IndexError: pop from empty list"
  | some inner =>
      match popStmtS (exitReconcile inner) with
      | .error m => .error m
      | .ok (_, inner) =>
          match (stk.dropLast).getLast? with
          | some parent =>
              match emitE parent
                  (.fn (fun x => .AttrStmt inner.id "attach_scope" parent.nm x)) with
              | .error m => .error m
              | .ok parent => .ok (stk.dropLast.dropLast ++ [exitAbsorb parent inner])
          | none => .ok []

/-- Run one traced operation.  `returnOp` is ukg.return_
(ukg.py:450-455): refuse when no block is open, then emit
`Return(Cast(dtype, val))` into the innermost block and set its
has_return flag.  `enterSub`/`exitSub` are KStmt.__enter__/__exit__. -/
def runOp (stk : List KState) (op : TraceOp) : Except String (List KState) :=
  match op with
  | .emitStmt v => modifyTop stk (fun t => emitE t (.stmt v))
  | .returnOp v =>
      if stk.isEmpty then
        .error "Imperative DSL must be used with other compute APIs"
      else
        modifyTop stk (fun t =>
          match emitE t (.stmt (.ReturnStmt (.Cast (get_tvm_dtype t.ret_dtype) v))) with
          | .error m => .error m
          | .ok t2 => .ok { t2 with has_return := true })
  | .enterSub nm id => .ok (stk ++ [freshK nm id])
  | .exitSub => kexit stk

/-- Run a traced callable body left to right. -/
def runTrace : List KState → List TraceOp → Except String (List KState)
  | stk, [] => .ok stk
  | stk, op :: rest =>
      match runOp stk op with
      | .error m => .error m
      | .ok stk2 => runTrace stk2 rest

/-- Whether a trace contains a use of the return_ construct. -/
def containsReturn (ops : List TraceOp) : Bool :=
  ops.any (fun op => match op with | .returnOp _ => true | _ => false)

/-- Whether a trace opens or closes no sub-block, i.e. acts only on the
function own block. -/
def noSubOps (ops : List TraceOp) : Bool :=
  ops.all (fun op =>
    match op with
    | .enterSub _ _ => false
    | .exitSub => false
    | _ => true)

/-- The core of ukg.def_ (ukg.py:344-406): open a fresh block named after
the function with its declared return dtype resolved and stored
(ukg.py:366,386), trace the callable body, then compute
`ret_void = UIntImm("uint1", 0) if s.has_return else UIntImm("uint1", 1)`
(ukg.py:396), fold the block scope into `body` (ukg.py:397) and build
the KernelDef node of ukg.py:400-401 with its claim-relevant fields
(body, ret_void, return dtype, name).  Parameter/placeholder plumbing and
the later registration lines are not modelled; a trace that closes or
shadows the function own block is rejected. -/
def defKernelDef (fname : String) (rd : Option String) (ops : List TraceOp) :
    Except String Stmt :=
  match runTrace [{ freshK fname 0 with ret_dtype := some (get_tvm_dtype rd) }] ops with
  | .error m => .error m
  | .ok [s] =>
      match popStmtS s with
      | .error m => .error m
      | .ok (body, _) =>
          .ok (.KernelDef body
            (if s.has_return then Expr.UIntImm "uint1" 0 else Expr.UIntImm "uint1" 1)
            (get_tvm_dtype rd) fname)
  | .ok _ => .error "trace left the function block closed or shadowed"

/- Concrete fixture states and traces used by the claim theorems. -/

/-- A block state with two open scopes whose outer scope already holds a
statement, as after `with KStmt(): emit; with if_/for_: ...`. -/
def c1bodyState : KState :=
  { freshK "s" 7 with stmt_stack := [[.stmt nopStmt], []] }

/-- The same state after a break_ inside the inner scope set has_break. -/
def c1brokenState : KState :=
  { c1bodyState with has_break := true }

/-- Class state in the hypothetical world where `KStmt.for_level` had been
given the value 0 on the class object. -/
def clsLevel0 : ClsState := ⟨some 0, none⟩

/-- A block state terminated by break inside an open if_ scope: outer
scope still empty, inner scope holding one statement. -/
def c6state : KState :=
  { freshK "s" 0 with has_break := true, stmt_stack := [[], [.stmt nopStmt]] }

/-- The state ifExit produces from c6state. -/
def c6afterState : KState :=
  { freshK "s" 0 with
    stmt_stack := [[.stmt (.IfThenElse (.Var "c") nopStmt none)]] }

/-- A scope whose last (and only) entry is a conditional with its else
branch already set. -/
def c7top : List Entry :=
  [.stmt (.IfThenElse (.Var "c") nopStmt (some nopStmt))]

/-- A block whose current scope is c7top. -/
def c7state : KState :=
  { freshK "s" 0 with stmt_stack := [c7top] }

/-- A block that has absorbed one closed child (id 1) and is about to be
closed itself, as P after its child A closes inside it. -/
def c4state : KState :=
  { freshK "p" 0 with last_subKStmts := {1} }

/-- A parent with unrelated pending inputs and a pending last sub-block,
absorbing a fresh child. -/
def c4parent : KState :=
  { freshK "p" 0 with input_KStmts := {5}, last_subKStmts := {1} }

/-- A traced body that opens a sub-block, returns inside it, and closes
it: a return_ is used during the trace, but not at the function block
own level. -/
def c9trace : List TraceOp :=
  [.enterSub "inner" 1, .returnOp (.IntImm 0), .exitSub]

/-- A traced body consisting of a single return_ at the function block
own level. -/
def c9flat : List TraceOp := [.returnOp (.IntImm 5)]

/- Helper lemmas about the fold. -/

theorem foldEntries_append (xs ys : List Entry) (acc : Stmt) :
    foldEntries acc (xs ++ ys) =
      (foldEntries acc xs).bind (fun a => foldEntries a ys) := by
  induction xs generalizing acc with
  | nil => simp [foldEntries, Except.bind]
  | cons x xs ih =>
    cases x with
    | stmt s => simpa [foldEntries] using ih (.Block s acc)
    | fn f => simpa [foldEntries] using ih (f acc)
    | other t => simp [foldEntries, Except.bind]

theorem foldEntries_stmts_reverse (l : List Stmt) (acc : Stmt) :
    foldEntries acc ((l.map Entry.stmt).reverse) = .ok (l.foldr Stmt.Block acc) := by
  induction l generalizing acc with
  | nil => simp [foldEntries]
  | cons x xs ih =>
    simp only [List.map_cons, List.reverse_cons, foldEntries_append, ih,
      List.foldr_cons]
    simp [foldEntries, Except.bind]

theorem rightNest_concat (l : List Stmt) (z : Stmt) :
    rightNest (l ++ [z]) = l.foldr Stmt.Block z := by
  induction l with
  | nil => simp [rightNest]
  | cons x xs ih =>
    cases xs with
    | nil => simp [rightNest]
    | cons y ys =>
      simp only [List.cons_append, List.foldr_cons] at ih ⊢
      rw [rightNest, ih]
      simp [rightNest]

theorem padScope_concat_stmt (xs : List Entry) (z : Stmt) :
    padScope (xs ++ [.stmt z]) = xs ++ [.stmt z] := by
  have h1 : (xs ++ [Entry.stmt z]).isEmpty = false := by
    cases xs <;> simp [List.isEmpty]
  simp [padScope, h1, lastIsFn, List.getLast?_concat, isFnEntry]

theorem popStmt_concat_stmt (xs : List Entry) (z : Stmt) :
    popStmt (xs ++ [.stmt z]) = foldEntries z xs.reverse := by
  simp [popStmt, padScope_concat_stmt, List.getLast?_concat, List.dropLast_concat]

/-- C2: for every scope list, pop_stmt folds as described: an all-concrete
list folds to the right-nested sequence preserving emission order (the
empty list folding to the no-op statement); the list
`[S1, wrapper w, S2]` folds to `Sequence(S1, w(S2))`; and a list ending in
a deferred wrapper is folded exactly as if a no-op statement were appended
after it. -/
theorem claim_C2_pop_scope_fold :
    (∀ l : List Stmt, popStmt (l.map Entry.stmt) = .ok (rightNest l)) ∧
    (∀ (s1 s2 : Stmt) (w : Stmt → Stmt),
      popStmt [.stmt s1, .fn w, .stmt s2] = .ok (.Block s1 (w s2))) ∧
    (∀ (l : List Entry) (w : Stmt → Stmt),
      popStmt (l ++ [.fn w]) = popStmt (l ++ [.fn w, .stmt nopStmt])) := by
  refine ⟨?_, ?_, ?_⟩
  · intro l
    rcases l.eq_nil_or_concat with rfl | ⟨l0, z, rfl⟩
    · simp [popStmt, padScope, foldEntries, rightNest, lastIsFn, nopStmt]
    · rw [List.concat_eq_append, List.map_append, List.map_singleton, popStmt_concat_stmt,
        rightNest_concat]
      exact foldEntries_stmts_reverse l0 z
  · intro s1 s2 w
    have : ([.stmt s1, .fn w] : List Entry) ++ [.stmt s2] =
        [.stmt s1, .fn w, .stmt s2] := rfl
    rw [← this, popStmt_concat_stmt]
    simp [foldEntries]
  · intro l w
    have hpad : padScope (l ++ [.fn w]) = padScope (l ++ [.fn w, .stmt nopStmt]) := by
      have h2 : l ++ [Entry.fn w, Entry.stmt nopStmt] =
          (l ++ [Entry.fn w]) ++ [Entry.stmt nopStmt] := by simp
      rw [h2, padScope_concat_stmt, padScope]
      simp [lastIsFn, List.getLast?_concat, isFnEntry]
    rw [popStmt, popStmt, hpad]

/- Helper lemmas about emit. -/

theorem pushLast_concat (pre : List (List Entry)) (top : List Entry) (e : Entry) :
    pushLast (pre ++ [top]) e = some (pre ++ [top ++ [e]]) := by
  simp [pushLast, List.getLast?_concat, List.dropLast_concat]

theorem foldEntries_error_of_mem_other (m : List Entry) (t : Nat)
    (hm : Entry.other t ∈ m) (acc : Stmt) :
    foldEntries acc m = .error assertIsStmtMsg := by
  induction m generalizing acc with
  | nil => cases hm
  | cons x xs ih =>
    cases x with
    | stmt s =>
      have : Entry.other t ∈ xs := by
        rcases List.mem_cons.mp hm with h | h
        · cases h
        · exact h
      simpa [foldEntries] using ih this (.Block s acc)
    | fn f =>
      have : Entry.other t ∈ xs := by
        rcases List.mem_cons.mp hm with h | h
        · cases h
        · exact h
      simpa [foldEntries] using ih this (f acc)
    | other u => simp [foldEntries]

/-- C10: emit performs no validation of the entry beyond the has_break
check -- with has_break unset it appends any value, including one that is
neither callable nor a statement node -- and the
`assert isinstance(s, Stmt)` of pop_stmt is what rejects such a value,
when the scope holding it below its final position is folded. -/
theorem claim_C10_emit_no_validation :
    (∀ (pre : List (List Entry)) (top : List Entry) (e : Entry),
      emitE { freshK "s" 0 with stmt_stack := pre ++ [top] } e =
        .ok { freshK "s" 0 with stmt_stack := pre ++ [top ++ [e]] }) ∧
    (∀ (pre mid : List Entry) (t : Nat) (z : Stmt),
      popStmt (pre ++ .other t :: mid ++ [.stmt z]) = .error assertIsStmtMsg) := by
  constructor
  · intro pre top e
    simp [emitE, freshK, pushLast_concat]
  · intro pre mid t z
    have hsplit : pre ++ Entry.other t :: mid ++ [Entry.stmt z] =
        (pre ++ Entry.other t :: mid) ++ [Entry.stmt z] := by simp
    rw [hsplit, popStmt_concat_stmt]
    exact foldEntries_error_of_mem_other _ t
      (by simp [List.mem_reverse]) z

/-- C3: when a block closes under an open parent, the parent sets are
updated exactly by
`input := (input ∪ child.input) minus last` and
`last := (last ∪ singleton child) minus child.input` (with the child
input already reconciled, KStmt.py:118); consequently a parent P with
leaf children A (closed first) and B (closed second, reading nothing,
B not already an input of P) ends with last sub-blocks exactly the pair
A, B and with neither A nor B among its inputs. -/
theorem claim_C3_dependency_reconciliation :
    (∀ parent child : KState,
      (closeInto child parent).input_KStmts =
        (parent.input_KStmts ∪ (child.last_subKStmts ∪ child.input_KStmts)) \
          parent.last_subKStmts ∧
      (closeInto child parent).last_subKStmts =
        (parent.last_subKStmts ∪ {child.id}) \
          (child.last_subKStmts ∪ child.input_KStmts)) ∧
    (∀ p a b : KState,
      a.input_KStmts = ∅ → a.last_subKStmts = ∅ →
      b.input_KStmts = ∅ → b.last_subKStmts = ∅ →
      p.last_subKStmts = ∅ → b.id ∉ p.input_KStmts →
      (closeInto b (closeInto a p)).last_subKStmts = {a.id, b.id} ∧
      a.id ∉ (closeInto b (closeInto a p)).input_KStmts ∧
      b.id ∉ (closeInto b (closeInto a p)).input_KStmts) := by
  constructor
  · intro parent child
    exact ⟨rfl, rfl⟩
  · intro p a b ha1 ha2 hb1 hb2 hp hbp
    refine ⟨?_, ?_, ?_⟩
    · simp only [closeInto, exitAbsorb, exitReconcile, ha1, ha2, hb1, hb2, hp,
        Finset.union_empty, Finset.empty_union, Finset.sdiff_empty]
      ext x
      simp only [Finset.mem_union, Finset.mem_singleton, Finset.mem_insert]
    · simp [closeInto, exitAbsorb, exitReconcile, ha1, ha2, hb1, hb2, hp]
    · simp [closeInto, exitAbsorb, exitReconcile, ha1, ha2, hb1, hb2, hp, hbp]

/-- Witness for C3 at concrete blocks: parent p (id 0) with fresh children
a (id 1) and b (id 2). -/
theorem claim_C3_dependency_reconciliation_witness :
    (closeInto (freshK "b" 2) (closeInto (freshK "a" 1) (freshK "p" 0))).last_subKStmts
        = {1, 2} ∧
    1 ∉ (closeInto (freshK "b" 2) (closeInto (freshK "a" 1) (freshK "p" 0))).input_KStmts ∧
    2 ∉ (closeInto (freshK "b" 2) (closeInto (freshK "a" 1) (freshK "p" 0))).input_KStmts :=
  claim_C3_dependency_reconciliation.2 (freshK "p" 0) (freshK "a" 1) (freshK "b" 2)
    rfl rfl rfl rfl rfl (by decide)

/-- C4 counterexample: the claim asserts input and last-writer sets are
disjoint after any close-time reconciliation, but the closing block own
reconciliation (KStmt.py:118) merges last_subKStmts into input_KStmts: a
block that absorbed one child (c4state, reachable as a parent P after its
child A closed inside it) ends its own close with the child in both
sets. -/
theorem claim_C4_counterexample :
    (exitReconcile c4state).input_KStmts ∩ (exitReconcile c4state).last_subKStmts ≠ ∅ := by
  decide

/-- C4 (amended): the disjointness holds for the parent side of a close --
after a parent absorbs a closing child that is not among the parent own
inputs, the parent input and last-writer sets are disjoint -- but the
closing block own reconciliation makes its input set a superset of its
last-writer set, so their intersection equals last_subKStmts (empty only
when the block had no pending sub-blocks). -/
theorem claim_C4_reconciled_disjointness :
    (∀ parent child : KState, child.id ∉ parent.input_KStmts →
      (closeInto child parent).input_KStmts ∩ (closeInto child parent).last_subKStmts = ∅) ∧
    (∀ s : KState,
      (exitReconcile s).input_KStmts ∩ (exitReconcile s).last_subKStmts = s.last_subKStmts) := by
  constructor
  · intro p c h
    rw [Finset.eq_empty_iff_forall_not_mem]
    intro x hx
    simp only [closeInto, exitAbsorb, exitReconcile, Finset.mem_inter,
      Finset.mem_sdiff, Finset.mem_union, Finset.mem_singleton] at hx
    obtain ⟨⟨hin, hnl⟩, ⟨hor, hnc⟩⟩ := hx
    rcases hor with hl | rfl
    · exact hnl hl
    · rcases hin with hin | hin
      · exact h hin
      · exact hnc hin
  · intro s
    ext x
    simp only [exitReconcile, Finset.mem_inter, Finset.mem_union]
    tauto

/-- Witness for C4 (amended) at concrete blocks. -/
theorem claim_C4_reconciled_disjointness_witness :
    (closeInto (freshK "c" 3) c4parent).input_KStmts ∩
        (closeInto (freshK "c" 3) c4parent).last_subKStmts = ∅ ∧
    (exitReconcile c4state).input_KStmts ∩ (exitReconcile c4state).last_subKStmts =
        c4state.last_subKStmts :=
  ⟨claim_C4_reconciled_disjointness.1 c4parent (freshK "c" 3) (by decide),
   claim_C4_reconciled_disjointness.2 c4state⟩

theorem emitE_ok_inv (s : KState) (e : Entry) (s2 : KState)
    (h : emitE s e = .ok s2) :
    s.has_break = false ∧ ∃ pre top, s.stmt_stack = pre ++ [top] ∧
      s2 = { s with stmt_stack := pre ++ [top ++ [e]] } := by
  by_cases hb : s.has_break
  · simp [emitE, hb] at h
  · rcases s.stmt_stack.eq_nil_or_concat with hnil | ⟨pre, top, hcat⟩
    · rw [emitE, if_neg hb, hnil] at h
      simp [pushLast] at h
    · rw [List.concat_eq_append] at hcat
      refine ⟨by simpa using hb, pre, top, hcat, ?_⟩
      rw [emitE, if_neg hb, hcat, pushLast_concat] at h
      exact (Except.ok.injEq _ _).mp h |>.symm

theorem emitE_ok_of_shape (s : KState) (e : Entry) (pre : List (List Entry))
    (top : List Entry) (hb : s.has_break = false) (hst : s.stmt_stack = pre ++ [top]) :
    emitE s e = .ok { s with stmt_stack := pre ++ [top ++ [e]] } := by
  rw [emitE, if_neg (by simp [hb]), hst, pushLast_concat]

/-- C6: once a block has_break flag is set, every further emit into its
scope fails with the emit-after-break error (the failure precedes any
mutation, so the scope list is untouched); when the enclosing if_
construct then closes, the exit callback clears has_break before emitting
the folded conditional, and the resulting state accepts emissions
again. -/
theorem claim_C6_break_finality (s : KState) (e : Entry)
    (h : s.has_break = true) :
    emitE s e = .error "Cannot write statements after break" ∧
    (∀ cond s2, ifExit cond s = .ok s2 →
      s2.has_break = false ∧ ∀ e2, (emitE s2 e2).isOk = true) := by
  constructor
  · simp [emitE, h]
  · intro cond s2 hok
    rw [ifExit] at hok
    cases hpop : popStmtS s with
    | error m =>
      rw [hpop] at hok
      exact Except.noConfusion
        (show (Except.error m : Except String KState) = .ok s2 from hok)
    | ok bodyPair =>
      rw [hpop] at hok
      replace hok : emitE { bodyPair.2 with has_break := false }
          (.stmt (.IfThenElse cond bodyPair.1 none)) = .ok s2 := hok
      obtain ⟨hb2, pre, top, hst, hs2⟩ := emitE_ok_inv _ _ _ hok
      subst hs2
      refine ⟨rfl, fun e2 => ?_⟩
      rw [emitE_ok_of_shape _ e2 pre
        (top ++ [Entry.stmt (.IfThenElse cond bodyPair.1 none)]) rfl rfl]
      rfl

/-- Witness for C6 at the concrete post-break state c6state. -/
theorem claim_C6_break_finality_witness :
    c6state.has_break = true ∧
    emitE c6state (.stmt nopStmt) = .error "Cannot write statements after break" ∧
    ifExit (.Var "c") c6state = .ok c6afterState ∧
    c6afterState.has_break = false ∧
    (emitE c6afterState (.stmt nopStmt)).isOk = true := by
  have h := claim_C6_break_finality c6state (.stmt nopStmt) rfl
  have h2 := h.2 (.Var "c") c6afterState rfl
  exact ⟨rfl, h.1, rfl, h2.1, h2.2 _⟩

/-- C7 counterexample: the claim says elif_ fails whenever the preceding
conditional else branch is already set, with the same precondition as
else_; on c7state (whose last entry is a conditional with its else branch
set) elif_ succeeds while else_ fails, because ukg.py:131 checks only
`isinstance(prev, IfThenElse)` and omits the `prev.else_case` test of
ukg.py:101. -/
theorem claim_C7_counterexample :
    (elifEnter c7state).isOk = true ∧ (elseEnter c7state).isOk = false :=
  ⟨rfl, rfl⟩

/-- C7 (amended): elif_ fails with the ElifWithoutIf error iff the current
scope last emitted entry is not a conditional statement (in particular
when the scope is empty); unlike else_, it does not require the
conditional else branch to be unset, so after a conditional whose else
branch is already set elif_ succeeds where else_ fails. -/
theorem claim_C7_elif_precondition (s : KState) (top : List Entry)
    (h : s.stmt_stack.getLast? = some top) :
    (elifEnter s = .error "elif_ can only follow an if_" ↔ lastIsCondEntry top = false) ∧
    (∀ (c : Expr) (t e2 : Stmt),
      top.getLast? = some (.stmt (.IfThenElse c t (some e2))) →
      (elifEnter s).isOk = true ∧ elseEnter s = .error "else_ can only follow an if_") := by
  constructor
  · cases htop : top.getLast? with
    | none => simp [elifEnter, h, htop, lastIsCondEntry]
    | some en =>
      cases en with
      | stmt st => cases st <;> simp [elifEnter, h, htop, lastIsCondEntry]
      | fn f => simp [elifEnter, h, htop, lastIsCondEntry, isFnEntry]
      | other t => simp [elifEnter, h, htop, lastIsCondEntry]
  · intro c t e2 htop
    constructor
    · simp [elifEnter, h, htop, Except.isOk, Except.toBool]
    · simp [elseEnter, h, htop]

/-- Witness for C7 (amended) at the concrete state c7state. -/
theorem claim_C7_elif_precondition_witness :
    (elifEnter c7state = .error "elif_ can only follow an if_" ↔
      lastIsCondEntry c7top = false) ∧
    (elifEnter c7state).isOk = true ∧
    elseEnter c7state = .error "else_ can only follow an if_" := by
  have h := claim_C7_elif_precondition c7state c7top rfl
  exact ⟨h.1, (h.2 (.Var "c") nopStmt nopStmt rfl).1, (h.2 (.Var "c") nopStmt nopStmt rfl).2⟩

theorem emitE_error_msg (s : KState) (e : Entry) (m : String)
    (h : emitE s e = .error m) :
    m = "Cannot write statements after break" ∨
    m = "IndexError: list index out of range" := by
  by_cases hb : s.has_break
  · rw [emitE, if_pos hb] at h
    exact .inl ((Except.error.injEq _ _).mp h).symm
  · rw [emitE, if_neg hb] at h
    cases hp : pushLast s.stmt_stack e with
    | none =>
      rw [hp] at h
      exact .inr ((Except.error.injEq _ _).mp h).symm
    | some st =>
      rw [hp] at h
      exact Except.noConfusion h

/-- C1: the claim describes exiting a for_ scope as folding the scope,
clearing the block has_break and emitting a loop over the computed
extent; the code does none of this.  Entering for_ already raises an
AttributeError at `KStmt.for_level += 1` (ukg.py:195) since the class
defines no for_level.  Even granting the class attribute a value, the exit
callback folds nothing (no pop_stmt call), leaves the instance has_break
untouched (it assigns `KStmt.has_break` on the class, ukg.py:207), and
emits a For node whose body argument is the KStmt object itself
(ukg.py:209) into the still-unpopped loop scope; when the loop body
contained a break_, the instance flag is still set, so the emit itself
raises instead. -/
theorem claim_C1_for_exit :
    forEnter 0 5 "x" (freshK "s" 0) clsInit =
      .error "AttributeError: type object KStmt has no attribute for_level" ∧
    forExit "serial" "x" 0 5 c1bodyState clsLevel0 =
      .ok ({ c1bodyState with
              stmt_stack := [[.stmt nopStmt], [.stmt (.ForPy "x" 0 5 .SERIAL 7)]] },
           ⟨some 1, some false⟩) ∧
    forExit "serial" "x" 0 5 c1brokenState clsLevel0 =
      .error "Cannot write statements after break" :=
  ⟨rfl, rfl, rfl⟩

/-- C5: break_ fails with the outside-loop error exactly when the current
block for_level is 0 (any other failure of break_ carries a different
message); but the end-to-end build of the claim cannot happen: entering
`for_(0, 5)` with the default name raises the __getattr__ ValueError on
the nonexistent counter attribute `nidx` (ukg.py:190, KStmt.py:186), and
for_ never increments the instance for_level in any case, so the body of
a for_ would still sit at loop depth 0. -/
theorem claim_C5_break_placement :
    (∀ s : KState,
      breakE s = .error "break_ must be used inside a for/while loop" ↔
        s.for_level = 0) ∧
    forEnter 0 5 "i" (freshK "s" 0) clsInit = .error "Member nidx not found" := by
  refine ⟨fun s => ?_, rfl⟩
  constructor
  · intro h
    by_contra hfl
    rw [breakE, if_neg hfl] at h
    cases he : emitE s (.stmt .BreakStmt) with
    | error m =>
      rw [he] at h
      replace h : (Except.error m : Except String KState) =
          .error "break_ must be used inside a for/while loop" := h
      rcases emitE_error_msg _ _ _ he with rfl | rfl
      · exact absurd ((Except.error.injEq _ _).mp h) (by decide)
      · exact absurd ((Except.error.injEq _ _).mp h) (by decide)
    | ok t =>
      rw [he] at h
      exact Except.noConfusion
        (show (Except.ok { t with has_break := true } : Except String KState) =
          .error "break_ must be used inside a for/while loop" from h)
  · intro h
    rw [breakE, if_pos h]

/-- C8: the claimed auto-naming rule is the expression at ukg.py:190 and
would produce the distinct names i, j, k for the first three unnamed
loops and i_0, i_1 afterwards; but the block-local counter it reads is
`nidx`, an attribute no KStmt has (KStmt.__init__ defines `for_ID`,
KStmt.py:87), so on a fresh block the read falls to __getattr__ and
raises, and no default-named loop is ever created. -/
theorem claim_C8_loop_naming :
    getattrKStmt (freshK "s" 0) "nidx" = .error "Member nidx not found" ∧
    (freshK "s" 0).for_ID = 0 ∧
    autoLoopName 0 = "i" ∧ autoLoopName 1 = "j" ∧ autoLoopName 2 = "k" ∧
    autoLoopName 3 = "i_0" ∧ autoLoopName 4 = "i_1" := by
  refine ⟨rfl, rfl, ?_, ?_, ?_, ?_, ?_⟩ <;> decide

theorem emitE_has_return (s : KState) (e : Entry) (t : KState)
    (h : emitE s e = .ok t) : t.has_return = s.has_return := by
  obtain ⟨_, pre, top, _, rfl⟩ := emitE_ok_inv s e t h
  rfl

theorem modifyTop_singleton_error (s : KState) (f : KState → Except String KState)
    (m : String) (h : f s = .error m) : modifyTop [s] f = .error m := by
  rw [modifyTop]
  simp only [List.getLast?_singleton, h]

theorem modifyTop_singleton_ok (s t : KState) (f : KState → Except String KState)
    (h : f s = .ok t) : modifyTop [s] f = .ok [t] := by
  rw [modifyTop]
  simp only [List.getLast?_singleton, h, List.dropLast_single, List.nil_append]

/-- For a trace acting only on the function own block, a successful run
keeps the stack a singleton and the block has_return flag records
exactly whether a return_ occurred. -/
theorem runTrace_noSub (ops : List TraceOp) :
    ∀ (s : KState) (stk2 : List KState),
      noSubOps ops = true → runTrace [s] ops = .ok stk2 →
      ∃ t, stk2 = [t] ∧ t.has_return = (s.has_return || containsReturn ops) := by
  induction ops with
  | nil =>
    intro s stk2 _ hrun
    simp only [runTrace, Except.ok.injEq] at hrun
    exact ⟨s, hrun.symm, by simp [containsReturn]⟩
  | cons op rest ih =>
    intro s stk2 hns hrun
    rw [noSubOps, List.all_cons, Bool.and_eq_true] at hns
    have hns2 : noSubOps rest = true := hns.2
    cases op with
    | enterSub nm id => exact Bool.noConfusion hns.1
    | exitSub => exact Bool.noConfusion hns.1
    | emitStmt v =>
      cases he : emitE s (.stmt v) with
      | error m =>
        rw [runTrace, runOp, modifyTop_singleton_error s _ m he] at hrun
        exact Except.noConfusion hrun
      | ok t =>
        rw [runTrace, runOp, modifyTop_singleton_ok s t _ he] at hrun
        obtain ⟨u, hu, hret⟩ := ih t stk2 hns2 hrun
        refine ⟨u, hu, ?_⟩
        rw [hret, emitE_has_return s _ t he]
        simp [containsReturn]
    | returnOp v =>
      have hco : containsReturn (TraceOp.returnOp v :: rest) = true := by
        simp [containsReturn]
      cases he : emitE s (.stmt (.ReturnStmt (.Cast (get_tvm_dtype s.ret_dtype) v))) with
      | error m =>
        rw [runTrace, runOp, if_neg (by simp)] at hrun
        rw [modifyTop_singleton_error s _ m (by rw [he])] at hrun
        exact Except.noConfusion hrun
      | ok t =>
        rw [runTrace, runOp, if_neg (by simp)] at hrun
        rw [modifyTop_singleton_ok s { t with has_return := true } _ (by rw [he])] at hrun
        obtain ⟨u, hu, hret⟩ := ih _ stk2 hns2 hrun
        refine ⟨u, hu, ?_⟩
        rw [hret, hco]
        simp

/-- C9 counterexample: the claim says the return-void flag is false
whenever a return_ construct was used anywhere during the trace; c9trace
uses return_ inside a nested sub-block opened during the trace, yet the
emitted node flag is the true value UIntImm("uint1", 1), because
return_ sets has_return only on the innermost open block and __exit__
never propagates it (KStmt.py:135-157, ukg.py:396,455). -/
theorem claim_C9_counterexample :
    containsReturn c9trace = true ∧
    defKernelDef "f" none c9trace =
      .ok (.KernelDef (.AttrStmt 1 "attach_scope" "f" nopStmt)
        (.UIntImm "uint1" 1) "int32" "f") :=
  ⟨rfl, rfl⟩

/-- C9 (amended): for a callable whose trace acts on the function own
block (opening no sub-block), the emitted node return-void flag is
UIntImm("uint1", 1) iff no return_ construct was used and
UIntImm("uint1", 0) otherwise, and the node carries the resolved declared
return dtype and the function name; a return_ executed inside a nested
sub-block opened during the trace does not clear the flag. -/
theorem claim_C9_return_void (ops : List TraceOp) (fname : String)
    (rd : Option String) (out : Stmt) (hns : noSubOps ops = true)
    (hok : defKernelDef fname rd ops = .ok out) :
    ∃ body, out = .KernelDef body
      (.UIntImm "uint1" (if containsReturn ops then 0 else 1))
      (get_tvm_dtype rd) fname := by
  rw [defKernelDef] at hok
  cases hrun : runTrace [{ freshK fname 0 with ret_dtype := some (get_tvm_dtype rd) }] ops with
  | error m =>
    rw [hrun] at hok
    exact Except.noConfusion hok
  | ok stk =>
    rw [hrun] at hok
    obtain ⟨t, rfl, hret⟩ := runTrace_noSub ops _ stk hns hrun
    have hret2 : t.has_return = containsReturn ops := hret
    replace hok : (match popStmtS t with
        | Except.error m => (Except.error m : Except String Stmt)
        | Except.ok (body, _) =>
            Except.ok (Stmt.KernelDef body
              (if t.has_return then Expr.UIntImm "uint1" 0 else Expr.UIntImm "uint1" 1)
              (get_tvm_dtype rd) fname)) = Except.ok out := hok
    cases hpop : popStmtS t with
    | error m =>
      rw [hpop] at hok
      exact Except.noConfusion hok
    | ok bodyPair =>
      obtain ⟨body, t2⟩ := bodyPair
      rw [hpop] at hok
      refine ⟨body, ?_⟩
      have h2 := (Except.ok.injEq _ _).mp hok
      rw [← h2, hret2]
      cases containsReturn ops <;> rfl

/-- Witness for C9 (amended) at the concrete single-return trace
c9flat. -/
theorem claim_C9_return_void_witness :
    noSubOps c9flat = true ∧
    ∃ body,
      Stmt.KernelDef (.ReturnStmt (.Cast "int32" (.IntImm 5)))
          (.UIntImm "uint1" 0) "int32" "f" =
        .KernelDef body (.UIntImm "uint1" (if containsReturn c9flat then 0 else 1))
          (get_tvm_dtype none) "f" :=
  ⟨rfl, claim_C9_return_void c9flat "f" none _ rfl rfl⟩

end UkgModel
